import Mathlib

/-!
# Verification of the Tattoo-Classifier batch pipelines

Shallow embedding of the two pipeline scripts (`local_app.py`, the photo
pipeline, and `tattoo_classifier.py`, the tattoo pipeline) and proofs about
the incremental, rate-limited, resumable batch-processing core.

Modelling conventions:
* Python strings are modelled as `List Char` (`Str`), with the Python string
  operations used by the source (`str.strip`, `str.split('\n')`,
  `str.replace`) re-implemented over `List Char` with Python's semantics
  (for the non-empty patterns the source uses).
* Real time (`time.time()`, `time.sleep`) is modelled by an explicit rational
  clock threaded through the driver state; environment-chosen delays say how
  much time passes before each clock read, and sleeps are ideal (exact).
* External collaborators (the filesystem, the image decoder, the inference
  service, the CSV parser) are modelled at their interfaces as inputs.
* `hashlib.md5(...).hexdigest()` is embedded as a full executable MD5 over
  byte lists, so the Content Fingerprinter is modelled bit-for-bit.
-/

abbrev Str := List Char

set_option allowUnsafeReducibility true in
attribute [semireducible] Rat.add Rat.sub Rat.mul Rat.inv

/-- Whitespace characters removed by Python's `str.strip()`. -/
def isPySpace (c : Char) : Bool :=
  c = ' ' || c = '\t' || c = '\n' || c = '\x0b' || c = '\x0c' || c = '\r'

/-- Python `s.strip()`: remove leading and trailing whitespace. -/
def pyStrip (s : Str) : Str :=
  ((s.dropWhile isPySpace).reverse.dropWhile isPySpace).reverse

/-- Python `s.split('\n')`: split on every newline character. -/
def pySplitNL : Str → List Str
  | [] => [[]]
  | c :: rest =>
    if c = '\n' then [] :: pySplitNL rest
    else
      match pySplitNL rest with
      | [] => [[c]]
      | l :: ls => (c :: l) :: ls

/-- Does `pat` occur as a prefix of `s`? -/
def isPrefixOfStr : Str → Str → Bool
  | [], _ => true
  | _ :: _, [] => false
  | p :: ps, c :: cs => p = c && isPrefixOfStr ps cs

/-- Does `pat` occur as a contiguous substring of `s`? -/
def occursIn (pat : Str) : Str → Bool
  | [] => isPrefixOfStr pat []
  | c :: cs => isPrefixOfStr pat (c :: cs) || occursIn pat cs

/-- Fuel-driven worker for `pyReplace`; the fuel is an upper bound on the
input length, so the `0` case is never reached on nonempty input. -/
def pyReplaceF (pat rep : Str) : Nat → Str → Str
  | _, [] => []
  | 0, s => s
  | fuel + 1, c :: cs =>
    if pat ≠ [] ∧ isPrefixOfStr pat (c :: cs) then
      rep ++ pyReplaceF pat rep fuel ((c :: cs).drop pat.length)
    else
      c :: pyReplaceF pat rep fuel cs

/-- Python `s.replace(pat, rep)` for a non-empty pattern: replace every
leftmost non-overlapping occurrence of `pat` by `rep`.  (The source only
calls `replace` with non-empty literals; for an empty pattern this model
returns `s` unchanged.) -/
def pyReplace (pat rep s : Str) : Str := pyReplaceF pat rep s.length s

/-! ## MD5 (`hashlib.md5`), over byte lists

Executable embedding of the MD5 digest used by `get_image_hash`.  Words are
`Nat`s reduced mod `2^32`. -/

/-- Left rotation of a 32-bit word `x < 2^32`. -/
def rotl32 (x n : Nat) : Nat :=
  (x * 2 ^ n + x / 2 ^ (32 - n)) % 4294967296

/-- Bitwise complement of a 32-bit word `x < 2^32`. -/
def not32 (x : Nat) : Nat := 4294967295 - x

/-- The 64 MD5 round constants `K[i] = floor(|sin(i+1)| * 2^32)`. -/
def md5K : List Nat :=
  [3614090360, 3905402710, 606105819, 3250441966, 4118548399, 1200080426,
   2821735955, 4249261313, 1770035416, 2336552879, 4294925233, 2304563134,
   1804603682, 4254626195, 2792965006, 1236535329, 4129170786, 3225465664,
   643717713, 3921069994, 3593408605, 38016083, 3634488961, 3889429448,
   568446438, 3275163606, 4107603335, 1163531501, 2850285829, 4243563512,
   1735328473, 2368359562, 4294588738, 2272392833, 1839030562, 4259657740,
   2763975236, 1272893353, 4139469664, 3200236656, 681279174, 3936430074,
   3572445317, 76029189, 3654602809, 3873151461, 530742520, 3299628645,
   4096336452, 1126891415, 2878612391, 4237533241, 1700485571, 2399980690,
   4293915773, 2240044497, 1873313359, 4264355552, 2734768916, 1309151649,
   4149444226, 3174756917, 718787259, 3951481745]

/-- The MD5 per-round left-rotation amounts. -/
def md5S : List Nat :=
  [7, 12, 17, 22, 7, 12, 17, 22, 7, 12, 17, 22, 7, 12, 17, 22,
   5, 9, 14, 20, 5, 9, 14, 20, 5, 9, 14, 20, 5, 9, 14, 20,
   4, 11, 16, 23, 4, 11, 16, 23, 4, 11, 16, 23, 4, 11, 16, 23,
   6, 10, 15, 21, 6, 10, 15, 21, 6, 10, 15, 21, 6, 10, 15, 21]

/-- One MD5 round: `i` is the round index, `m` the 16 message words. -/
def md5Round (m : List Nat) (st : Nat × Nat × Nat × Nat) (i : Nat) :
    Nat × Nat × Nat × Nat :=
  let (a, b, c, d) := st
  let f :=
    if i < 16 then (b &&& c) ||| (not32 b &&& d)
    else if i < 32 then (d &&& b) ||| (not32 d &&& c)
    else if i < 48 then b ^^^ c ^^^ d
    else c ^^^ (b ||| not32 d)
  let g :=
    if i < 16 then i
    else if i < 32 then (5 * i + 1) % 16
    else if i < 48 then (3 * i + 5) % 16
    else (7 * i) % 16
  let sum := (a + f + md5K.getD i 0 + m.getD g 0) % 4294967296
  (d, (b + rotl32 sum (md5S.getD i 0)) % 4294967296, b, c)

/-- Split a byte list into little-endian 32-bit words (4 bytes per word). -/
def bytesToWordsLE : List Nat → List Nat
  | b0 :: b1 :: b2 :: b3 :: rest =>
    (b0 + b1 * 256 + b2 * 65536 + b3 * 16777216) :: bytesToWordsLE rest
  | _ => []

/-- Process one 64-byte block, updating the four chaining words. -/
def md5Block (st : Nat × Nat × Nat × Nat) (block : List Nat) :
    Nat × Nat × Nat × Nat :=
  let m := bytesToWordsLE block
  let (a0, b0, c0, d0) := st
  let (a, b, c, d) := (List.range 64).foldl (md5Round m) (a0, b0, c0, d0)
  ((a0 + a) % 4294967296, (b0 + b) % 4294967296,
   (c0 + c) % 4294967296, (d0 + d) % 4294967296)

/-- Fuel-driven worker for `chunks64`; the fuel is an upper bound on the
input length. -/
def chunks64F : Nat → List Nat → List (List Nat)
  | _, [] => []
  | 0, l => [l]
  | fuel + 1, l => l.take 64 :: chunks64F fuel (l.drop 64)

/-- Chop a padded message into 64-byte blocks. -/
def chunks64 (l : List Nat) : List (List Nat) := chunks64F l.length l

/-- MD5 padding: append `0x80`, zero-pad to 56 mod 64, then the original
bit length as 8 little-endian bytes. -/
def md5Pad (msg : List Nat) : List Nat :=
  let bitLen := (msg.length * 8) % 18446744073709551616
  let withOne := msg ++ [128]
  let zeros := (64 + 56 - withOne.length % 64) % 64
  withOne ++ List.replicate zeros 0 ++
    (List.range 8).map (fun i => bitLen / 256 ^ i % 256)

/-- A 32-bit word as 4 little-endian bytes. -/
def wordToBytesLE (w : Nat) : List Nat :=
  [w % 256, w / 256 % 256, w / 65536 % 256, w / 16777216 % 256]

/-- Lowercase hex digit for `n < 16`. -/
def hexDigit (n : Nat) : Char :=
  if n < 10 then Char.ofNat (48 + n) else Char.ofNat (87 + n)

/-- A byte as two lowercase hex characters. -/
def byteToHex (b : Nat) : Str := [hexDigit (b / 16 % 16), hexDigit (b % 16)]

/-- The 16-byte MD5 digest of a byte list. -/
def md5Bytes (msg : List Nat) : List Nat :=
  let st := (chunks64 (md5Pad msg)).foldl md5Block
    (1732584193, 4023233417, 2562383102, 271733878)
  wordToBytesLE st.1 ++ wordToBytesLE st.2.1 ++
    wordToBytesLE st.2.2.1 ++ wordToBytesLE st.2.2.2

/-- Model of `hashlib.md5(msg).hexdigest()`: the 32-character lowercase hex digest. -/
def md5Hex (msg : List Nat) : Str :=
  (md5Bytes msg).foldr (fun b acc => byteToHex b ++ acc) []

/-- Validation of the MD5 embedding on the standard empty-message vector. -/
theorem md5Hex_nil : md5Hex [] = "d41d8cd98f00b204e9800998ecf8427e".toList := by decide

/-! ## External interfaces

The environment bundles the external collaborators the drivers interact
with, modelled at their interfaces:
* `fs`: the filesystem; `fs p = some bytes` means the file at `p` opens and
  reads successfully with those contents, `none` means open/read fails.
* `decodeOk`: whether `encode_image` (PIL decode + resize) succeeds;
  on failure `encode_image` returns `None`.
* `svcRaises`/`svcText`: the inference service; `svcRaises p = some m`
  means `model.generate_content`/`resolve` raises an exception with message
  `m`, otherwise the response text is `svcText p`.
* `preDelay p`: real time elapsing between the previous clock capture and
  this image's `time.time()` read at the rate-limit check.
* `callDelay p`: duration of the classify-and-append step, up to the
  counter updates.
* `writeRaises p`: the CSV append (`writer.writerow`) raises, hitting the
  per-image `except` branch of the driver loop.
* `dateAt`: `datetime.now().strftime('%Y-%m-%d %H:%M:%S')` as a function
  of the model clock.
Sleeps are ideal (exact duration) and clock reads instantaneous. -/
structure Env where
  fs : Str → Option (List Nat)
  decodeOk : Str → Bool
  svcRaises : Str → Option Str
  svcText : Str → Str
  preDelay : Str → ℚ
  callDelay : Str → ℚ
  writeRaises : Str → Bool
  dateAt : ℚ → Str

/-- One entry produced by `folder.glob('**/*')`: its path as a string and
its `pathlib` suffix (extension including the dot, original case). -/
structure Entry where
  path : Str
  suffix : Str

/-- Python `str.lower()` (ASCII, as used on extensions). -/
def pyLower (s : Str) : Str := s.map Char.toLower

/-- The supported image extensions (both scripts, identical literal). -/
def image_extensions : List Str :=
  [".jpg".toList, ".jpeg".toList, ".png".toList, ".gif".toList, ".webp".toList]

namespace local_app

/-- Model of `get_image_hash` (local_app.py lines 79-89): MD5 hex digest of the
first 8192 bytes (`f.read(8192)`); if the file cannot be opened/read, the
`except` branch returns `str(image_path)` as a fallback. -/
def get_image_hash (fs : Str → Option (List Nat)) (image_path : Str) : Str :=
  match fs image_path with
  | some bytes => md5Hex (bytes.take 8192)
  | none => image_path

/-- One row of the photo ledger (`photo_analysis.csv` schema). -/
structure PhotoRow where
  path : Str
  hash : Str
  category : Str
  wedding : Str
  people : Str
  location : Str
  description : Str
  date : Str
deriving DecidableEq

/-- The existing ledger file as seen by `pandas.read_csv`: missing,
parsed into rows, or failing to parse (any exception, including a missing
column). -/
inductive LedgerFile where
  | absent
  | table (rows : List PhotoRow)
  | malformed
deriving DecidableEq

/-- Model of `get_processed_images` (local_app.py lines 91-104): no file gives empty
index with no error; a parsed table gives its `Image Hash` column (as the
key set of `hash_dict`) and its `Image Path` column (as `path_set`); a
parse failure is caught, reported, and gives empty sets. -/
def get_processed_images : LedgerFile → List Str × List Str
  | .absent => ([], [])
  | .table rows => (rows.map PhotoRow.hash, rows.map PhotoRow.path)
  | .malformed => ([], [])

/-- The fixed sentinel attribute tuple returned by `analyze_photo` on any
failure; only the description varies. -/
def errorResult (description : Str) : Str × Str × Str × Str × Str :=
  ("Error".toList, "N/A".toList, "Unknown".toList, "Unknown".toList, description)

/-- Model of `analyze_photo` (local_app.py lines 40-77).  Decode failure returns the
sentinel with `"Failed to load image"`; a service exception is caught and
returns the sentinel with `"Failed to process: " ++ msg`; otherwise the
response text is stripped, split on newlines, and the five fields read
positionally with `str.replace(label, '')` then `strip()`.  Fewer than five
lines raises `IndexError` (`"list index out of range"`), caught by the same
handler. -/
def analyze_photo (env : Env) (image_path : Str) : Str × Str × Str × Str × Str :=
  if env.decodeOk image_path = false then
    errorResult "Failed to load image".toList
  else
    match env.svcRaises image_path with
    | some e => errorResult ("Failed to process: ".toList ++ e)
    | none =>
      let lines := pySplitNL (pyStrip (env.svcText image_path))
      if lines.length < 5 then
        errorResult "Failed to process: list index out of range".toList
      else
        (pyStrip (pyReplace "Category: ".toList [] (lines.getD 0 [])),
         pyStrip (pyReplace "Wedding: ".toList [] (lines.getD 1 [])),
         pyStrip (pyReplace "People: ".toList [] (lines.getD 2 [])),
         pyStrip (pyReplace "Location: ".toList [] (lines.getD 3 [])),
         pyStrip (pyReplace "Description: ".toList [] (lines.getD 4 [])))

/-- Driver state for one `process_folder` run (local_app.py lines 152-157
plus the open ledger file).  `rows` are the rows appended this run (still
possibly buffered), `flushed` how many of them have been made durable by an
explicit `f.flush()`.  `callLog` is a ghost trace of classification
attempts: `(minute_start at issue, issue time)`; it records every
`analyze_photo` invocation, an upper bound on inference-service calls and
exact for images that decode successfully.  `hitDailyLimit` records the
daily-limit `break`. -/
structure PhotoState where
  clock : ℚ
  minute_start : ℚ
  requests_this_minute : Nat
  daily_requests : Nat
  total_processed : Nat
  rows : List PhotoRow
  flushed : Nat
  callLog : List (ℚ × ℚ)
  hitDailyLimit : Bool

/-- Result of one loop iteration: `halt` is the daily-limit `break`,
`next` continues with the remaining images. -/
inductive StepRes where
  | halt (s : PhotoState)
  | next (s : PhotoState)

/-- One iteration of the driver loop (local_app.py lines 159-210), for one
candidate image path:
1. `break` if `daily_requests >= daily_limit`;
2. compute the content hash and `continue` if it is already known;
3. rate-limit: reset the minute window if 60 s have passed; if the
   counter is at 14, sleep the remainder of the window and reset;
4. classify (`analyze_photo`), append the row, bump the counters, sleep 1 s,
   and flush every 10th successful append; a write exception is caught and
   the loop continues without the row or the counter updates. -/
def photo_step (env : Env) (daily_limit : Nat) (processed_hashes : List Str)
    (s : PhotoState) (image_path : Str) : StepRes :=
  if s.daily_requests ≥ daily_limit then
    .halt { s with hitDailyLimit := true }
  else
    let image_hash := get_image_hash env.fs image_path
    if image_hash ∈ processed_hashes then
      .next s
    else
      let current_time := s.clock + env.preDelay image_path
      let ms1 := if current_time - s.minute_start ≥ 60 then current_time else s.minute_start
      let rtm1 := if current_time - s.minute_start ≥ 60 then 0 else s.requests_this_minute
      let t := if rtm1 ≥ 14 then ms1 + 60 else current_time
      let ms2 := if rtm1 ≥ 14 then ms1 + 60 else ms1
      let rtm2 := if rtm1 ≥ 14 then 0 else rtm1
      let res := analyze_photo env image_path
      let s1 : PhotoState :=
        { s with clock := t + env.callDelay image_path,
                 minute_start := ms2,
                 requests_this_minute := rtm2,
                 callLog := s.callLog ++ [(ms2, t)] }
      if env.writeRaises image_path then
        .next s1
      else
        let processed_date := env.dateAt s1.clock
        let row : PhotoRow :=
          { path := image_path, hash := image_hash,
            category := res.1, wedding := res.2.1, people := res.2.2.1,
            location := res.2.2.2.1, description := res.2.2.2.2,
            date := processed_date }
        let total := s.total_processed + 1
        .next { s1 with
          rows := s.rows ++ [row],
          total_processed := total,
          requests_this_minute := rtm2 + 1,
          daily_requests := s.daily_requests + 1,
          clock := s1.clock + 1,
          flushed := if total % 10 = 0 then s.rows.length + 1 else s.flushed }

/-- The driver loop over the candidate list; `halt` stops consuming. -/
def photo_loop (env : Env) (daily_limit : Nat) (processed_hashes : List Str) :
    PhotoState → List Str → PhotoState
  | s, [] => s
  | s, p :: rest =>
    match photo_step env daily_limit processed_hashes s p with
    | .halt s' => s'
    | .next s' => photo_loop env daily_limit processed_hashes s' rest

/-- The scan phase (local_app.py lines 134-143): keep entries whose
lowercased suffix is a recognized extension and whose path is not already in
the ledger's path set, in enumeration order. -/
def scan_images (processed_paths : List Str) (entries : List Entry) : List Str :=
  (entries.filter
    (fun e => pyLower e.suffix ∈ image_extensions ∧ e.path ∉ processed_paths)).map Entry.path

/-- The optional random down-sampling (local_app.py lines 147-150);
`random.sample` is modelled by the caller-supplied oracle `rand`, applied
only when a sample size is given and smaller than the candidate count. -/
def apply_sample (rand : Nat → List Str → List Str) (sample_size : Option Nat)
    (l : List Str) : List Str :=
  match sample_size with
  | some k => if k < l.length then rand k l else l
  | none => l

/-- Model of `process_folder` (local_app.py lines 106-212): read the ledger index,
scan and sample the folder, then run the driver loop from fresh counters
with `minute_start` (and the clock) at the wall time `t0` of the run
start. -/
def process_folder (env : Env) (ledger : LedgerFile) (entries : List Entry)
    (rand : Nat → List Str → List Str) (daily_limit : Nat)
    (sample_size : Option Nat) (t0 : ℚ) : PhotoState :=
  let idx := get_processed_images ledger
  let all_images := apply_sample rand sample_size (scan_images idx.2 entries)
  photo_loop env daily_limit idx.1
    { clock := t0, minute_start := t0, requests_this_minute := 0,
      daily_requests := 0, total_processed := 0, rows := [], flushed := 0,
      callLog := [], hitDailyLimit := false }
    all_images

end local_app

namespace tattoo_classifier

/-- One row of the tattoo ledger (`tattoo_analysis.csv` schema); note there
is no hash column. -/
structure TattooRow where
  path : Str
  primary : Str
  secondary : Str
  description : Str
  date : Str
deriving DecidableEq

/-- The existing tattoo ledger as seen by `pandas.read_csv`. -/
inductive LedgerFile where
  | absent
  | table (paths : List Str)
  | malformed
deriving DecidableEq

/-- Model of `get_processed_images` (tattoo_classifier.py lines 73-83): the path set
only; there is no hash index in this pipeline. -/
def get_processed_images : LedgerFile → List Str
  | .absent => []
  | .table paths => paths
  | .malformed => []

/-- The fixed sentinel attribute tuple returned by `analyze_tattoo` on any
failure. -/
def errorResult (description : Str) : Str × Str × Str :=
  ("Error".toList, "Error".toList, description)

/-- Model of `analyze_tattoo` (tattoo_classifier.py lines 40-71): same shape as
`analyze_photo` with a three-field positional parse
(`Primary: `, `Secondary: `, `Description: `). -/
def analyze_tattoo (env : Env) (image_path : Str) : Str × Str × Str :=
  if env.decodeOk image_path = false then
    errorResult "Failed to load image".toList
  else
    match env.svcRaises image_path with
    | some e => errorResult ("Failed to process: ".toList ++ e)
    | none =>
      let lines := pySplitNL (pyStrip (env.svcText image_path))
      if lines.length < 3 then
        errorResult "Failed to process: list index out of range".toList
      else
        (pyStrip (pyReplace "Primary: ".toList [] (lines.getD 0 [])),
         pyStrip (pyReplace "Secondary: ".toList [] (lines.getD 1 [])),
         pyStrip (pyReplace "Description: ".toList [] (lines.getD 2 [])))

/-- Driver state for one tattoo `process_folder` run (tattoo_classifier.py
lines 106-110).  There is no daily counter in this pipeline.  `flushed`
models the rows made durable by an explicit flush during the run: the
tattoo driver contains no `f.flush()` call, so no transition ever sets it.
`callLog` is the same ghost trace as in the photo driver. -/
structure TattooState where
  clock : ℚ
  minute_start : ℚ
  requests_this_minute : Nat
  total_processed : Nat
  rows : List TattooRow
  flushed : Nat
  callLog : List (ℚ × ℚ)

/-- One iteration of the tattoo driver loop (tattoo_classifier.py lines
112-148) over one glob entry: extension filter and path-based skip inline,
then the same rate gate as the photo driver, classify, append, bump
counters, sleep 1 s.  No hash check, no daily cap, no flush.  A write
exception is caught and the loop continues without the row or the counter
updates. -/
def tattoo_step (env : Env) (processed_images : List Str)
    (s : TattooState) (e : Entry) : TattooState :=
  if pyLower e.suffix ∈ image_extensions then
    if e.path ∈ processed_images then
      s
    else
      let current_time := s.clock + env.preDelay e.path
      let ms1 := if current_time - s.minute_start ≥ 60 then current_time else s.minute_start
      let rtm1 := if current_time - s.minute_start ≥ 60 then 0 else s.requests_this_minute
      let t := if rtm1 ≥ 14 then ms1 + 60 else current_time
      let ms2 := if rtm1 ≥ 14 then ms1 + 60 else ms1
      let rtm2 := if rtm1 ≥ 14 then 0 else rtm1
      let res := analyze_tattoo env e.path
      let s1 : TattooState :=
        { s with clock := t + env.callDelay e.path,
                 minute_start := ms2,
                 requests_this_minute := rtm2,
                 callLog := s.callLog ++ [(ms2, t)] }
      if env.writeRaises e.path then
        s1
      else
        let processed_date := env.dateAt s1.clock
        let row : TattooRow :=
          { path := e.path, primary := res.1, secondary := res.2.1,
            description := res.2.2, date := processed_date }
        { s1 with
          rows := s.rows ++ [row],
          total_processed := s.total_processed + 1,
          requests_this_minute := rtm2 + 1,
          clock := s1.clock + 1 }
  else s

/-- Model of `process_folder` (tattoo_classifier.py lines 85-152): read the ledger's
path set and fold the per-entry step over the glob enumeration, from fresh
counters with `minute_start` (and the clock) at the run-start wall time
`t0`. -/
def process_folder (env : Env) (ledger : LedgerFile) (entries : List Entry)
    (t0 : ℚ) : TattooState :=
  let processed_images := get_processed_images ledger
  entries.foldl (tattoo_step env processed_images)
    { clock := t0, minute_start := t0, requests_this_minute := 0,
      total_processed := 0, rows := [], flushed := 0, callLog := [] }

end tattoo_classifier

/-! ## Summary Reporter (`analyze_results`, local_app.py lines 216-252) -/

/-- Round half to even (numpy/pandas `.round`) to an integer. -/
def roundHalfEven (q : ℚ) : ℤ :=
  let f := ⌊q⌋
  let r := q - f
  if r < 1 / 2 then f
  else if 1 / 2 < r then f + 1
  else if f % 2 = 0 then f else f + 1

/-- Model of `.round(1)`: round to one decimal place, half to even.  The source
computes percentages in float64; this model uses exact rationals, faithful
whenever the values are exactly representable. -/
def round1 (q : ℚ) : ℚ := (roundHalfEven (q * 10) : ℚ) / 10

/-- Distinct values of a list in order of first occurrence (the groups of
`pandas.value_counts`); `seen` accumulates values already emitted. -/
def distinctsAux : List Str → List Str → List Str
  | _, [] => []
  | seen, v :: rest =>
    if v ∈ seen then distinctsAux seen rest
    else v :: distinctsAux (v :: seen) rest

/-- Distinct values in order of first occurrence. -/
def distincts (l : List Str) : List Str := distinctsAux [] l

/-- Stable insertion into a list ordered by descending count. -/
def insertByCount (x : Str × Nat) : List (Str × Nat) → List (Str × Nat)
  | [] => [x]
  | y :: ys => if y.2 ≤ x.2 then x :: y :: ys else y :: insertByCount x ys

/-- Stable sort by descending count. -/
def sortByCountDesc : List (Str × Nat) → List (Str × Nat)
  | [] => []
  | x :: xs => insertByCount x (sortByCountDesc xs)

/-- Model of `pandas.Series.value_counts`: one `(value, count)` pair per distinct
value, ordered by descending count (tie order is unspecified in pandas;
this model resolves ties by first occurrence). -/
def value_counts (vals : List Str) : List (Str × Nat) :=
  sortByCountDesc ((distincts vals).map (fun v => (v, vals.count v)))

/-- Model of `analyze_results` (local_app.py lines 216-252): `none` when the ledger
file does not exist (early return) or fails to parse (the `except` branch);
otherwise the name of the derived file —
`csv_path.replace('.csv', '_analysis.csv')`, a literal substring
replacement — together with its rows: one `(category, count, percentage)`
per distinct category, percentage `count / total * 100` rounded to one
decimal, ordered by descending count.  Writing the derived file is the only
write; it mutates the ledger exactly when the derived name equals
`csv_path`.  (For an empty table the source's float division yields
inf/nan; in this model `ℚ` division by zero yields 0.) -/
def analyze_results (csv_path : Str) (ledger : local_app.LedgerFile) :
    Option (Str × List (Str × Nat × ℚ)) :=
  match ledger with
  | .absent => none
  | .malformed => none
  | .table rows =>
    let total_images := rows.length
    let categories := value_counts (rows.map local_app.PhotoRow.category)
    let analysis_file := pyReplace ".csv".toList "_analysis.csv".toList csv_path
    some (analysis_file,
      categories.map (fun vc =>
        (vc.1, vc.2, round1 ((vc.2 : ℚ) / (total_images : ℚ) * 100))))

/-! ## Invariants and concrete fixtures -/

/-- Number of logged classification attempts issued inside the governor
window that started at `w`. -/
def winCount (w : ℚ) (log : List (ℚ × ℚ)) : Nat :=
  (log.filter (fun c => c.1 = w)).length

/-- Rate-governor invariant: every logged call belongs to a window that
started no later than the current one, the current window's logged calls
are exactly `requests_this_minute`, and no window ever logs more than 14
calls. -/
def GovInv (s : local_app.PhotoState) : Prop :=
  (∀ c ∈ s.callLog, c.1 ≤ s.minute_start) ∧
  winCount s.minute_start s.callLog = s.requests_this_minute ∧
  ∀ w, winCount w s.callLog ≤ 14

/-- Daily-cap invariant: the daily counter never exceeds the limit and
(absent write failures) counts the logged classification attempts
exactly. -/
def CapInv (daily_limit : Nat) (s : local_app.PhotoState) : Prop :=
  s.daily_requests ≤ daily_limit ∧ s.callLog.length = s.daily_requests

/-- Durability invariant: the rows of this run equal the successful-append
count, and the durable prefix is the last full batch of ten. -/
def FlushInv (s : local_app.PhotoState) : Prop :=
  s.rows.length = s.total_processed ∧
  s.flushed = 10 * (s.total_processed / 10)

/-- Lock-step correspondence between a photo-driver state and a
tattoo-driver state: same clock, same governor window and counter, same
progress counter (which in the photo driver also equals the daily
counter), same call trace, and ledgers that agree on the appended paths. -/
def SyncRel (sp : local_app.PhotoState) (st : tattoo_classifier.TattooState) : Prop :=
  sp.clock = st.clock ∧
  sp.minute_start = st.minute_start ∧
  sp.requests_this_minute = st.requests_this_minute ∧
  sp.total_processed = st.total_processed ∧
  sp.daily_requests = sp.total_processed ∧
  sp.callLog = st.callLog ∧
  sp.rows.map local_app.PhotoRow.path = st.rows.map tattoo_classifier.TattooRow.path

/-- A quiet environment: unreadable files (so hashing falls back to the
path), decodes succeed, the service answers instantly with an empty
response, and nothing raises on the write path. -/
def calmEnv : Env :=
  { fs := fun _ => none,
    decodeOk := fun _ => true,
    svcRaises := fun _ => none,
    svcText := fun _ => [],
    preDelay := fun _ => 0,
    callDelay := fun _ => 0,
    writeRaises := fun _ => false,
    dateAt := fun _ => "2026-10-12 00:00:00".toList }

/-- Like `calmEnv` but the first image is reached 46 seconds into the
run's first minute window. -/
def burstEnv : Env :=
  { calmEnv with preDelay := fun p => if p = "a.jpg".toList then 46 else 0 }

/-- Twenty-eight fresh candidate images; the first one carries the 46-second lead-in
of `burstEnv`. -/
def burstEntries : List Entry :=
  ⟨"a.jpg".toList, ".jpg".toList⟩ ::
    List.replicate 27 ⟨"b.jpg".toList, ".jpg".toList⟩

/-- A service response with a one-line preamble before the five labelled
lines: a format deviation. -/
def preambleEnv : Env :=
  { calmEnv with svcText := fun _ =>
      "Preamble\nCategory: X\nWedding: Y\nPeople: Z\nLocation: L".toList }

/-- A well-formed five-line service response. -/
def validEnv : Env :=
  { calmEnv with svcText := fun _ =>
      "Category: A\nWedding: B\nPeople: C\nLocation: D\nDescription: E".toList }

/-- A fresh photo-driver start state at wall time `t0`. -/
def photoInit (t0 : ℚ) : local_app.PhotoState :=
  { clock := t0, minute_start := t0, requests_this_minute := 0,
    daily_requests := 0, total_processed := 0, rows := [], flushed := 0,
    callLog := [], hitDailyLimit := false }

/-- A photo ledger row with the given path, hash and category; the other
attributes are fixed fillers. -/
def mkPhotoRow (path hash category : Str) : local_app.PhotoRow :=
  { path := path, hash := hash, category := category,
    wedding := "w".toList, people := "x".toList, location := "y".toList,
    description := "z".toList, date := "2026-10-11 00:00:00".toList }

/-- A ledger with categories Wedding ×3 and Birthday ×1. -/
def summaryRows : List local_app.PhotoRow :=
  [mkPhotoRow "p1".toList "h1".toList "Wedding".toList,
   mkPhotoRow "p2".toList "h2".toList "Wedding".toList,
   mkPhotoRow "p3".toList "h3".toList "Wedding".toList,
   mkPhotoRow "p4".toList "h4".toList "Birthday".toList]

/-! ## Claim C2 material -/

/-- C2 counterexample: a service response with a one-line preamble before
the five labelled lines — a deviation from the expected format — does NOT
cause a malformed-result error.  It parses "successfully", assigning the
preamble to `category` and every remaining value to the wrong attribute
(the labels survive inside the values because `str.replace` removes the
label as a substring and the expected label is absent from each line).
This falsifies C2's assertion that any deviation (extra preamble,
reordered line) yields a malformed-result error rather than silent
misassignment. -/
theorem C2_counterexample :
    local_app.analyze_photo preambleEnv "a.jpg".toList =
      ("Preamble".toList, "Category: X".toList, "Wedding: Y".toList,
       "People: Z".toList, "Location: L".toList) := by decide

/-- C2 amended: parsing is strictly positional, but the label is removed by
substring replacement (`str.replace`), not literal-prefix removal, and the
only deviation that produces the malformed-result (sentinel) outcome is a
response with fewer than five lines (an `IndexError`); any five-or-more
line response — reordered or with preamble — is assigned positionally and
silently.  Field `i` of a parsed response is line `i` with every occurrence
of the expected label removed and the result stripped. -/
theorem C2_amended (env : Env) (p : Str)
    (hdec : env.decodeOk p = true) (hsvc : env.svcRaises p = none) :
    ((pySplitNL (pyStrip (env.svcText p))).length < 5 →
      local_app.analyze_photo env p =
        local_app.errorResult "Failed to process: list index out of range".toList) ∧
    (5 ≤ (pySplitNL (pyStrip (env.svcText p))).length →
      local_app.analyze_photo env p =
        (pyStrip (pyReplace "Category: ".toList []
           ((pySplitNL (pyStrip (env.svcText p))).getD 0 [])),
         pyStrip (pyReplace "Wedding: ".toList []
           ((pySplitNL (pyStrip (env.svcText p))).getD 1 [])),
         pyStrip (pyReplace "People: ".toList []
           ((pySplitNL (pyStrip (env.svcText p))).getD 2 [])),
         pyStrip (pyReplace "Location: ".toList []
           ((pySplitNL (pyStrip (env.svcText p))).getD 3 [])),
         pyStrip (pyReplace "Description: ".toList []
           ((pySplitNL (pyStrip (env.svcText p))).getD 4 [])))) := by
  constructor
  · intro h5
    simp [local_app.analyze_photo, hdec, hsvc, h5]
  · intro h5
    simp [local_app.analyze_photo, hdec, hsvc, Nat.not_lt.mpr h5]

/-- Witness for C2 amended: a well-formed five-line response parses into
its five field values. -/
theorem C2_witness :
    local_app.analyze_photo validEnv "a.jpg".toList =
      ("A".toList, "B".toList, "C".toList, "D".toList, "E".toList) := by
  have h := (C2_amended validEnv "a.jpg".toList rfl rfl).2 (by decide)
  rw [h]
  decide

/-! ## Claim C5 material -/

/-- Any of the three per-image failure modes makes `analyze_photo` return
the fixed sentinel tuple, with a description identifying the failure. -/
theorem analyze_photo_fail (env : Env) (p : Str)
    (hfail : env.decodeOk p = false ∨ (∃ m, env.svcRaises p = some m) ∨
      (env.decodeOk p = true ∧ env.svcRaises p = none ∧
        (pySplitNL (pyStrip (env.svcText p))).length < 5)) :
    local_app.analyze_photo env p = local_app.errorResult "Failed to load image".toList ∨
    ∃ m, local_app.analyze_photo env p =
      local_app.errorResult ("Failed to process: ".toList ++ m) := by
  rcases hfail with hd | ⟨m, hm⟩ | ⟨hd, hs, h5⟩
  · left
    simp [local_app.analyze_photo, hd]
  · cases hdec : env.decodeOk p with
    | false =>
      left
      simp [local_app.analyze_photo, hdec]
    | true =>
      right
      exact ⟨m, by simp [local_app.analyze_photo, hdec, hm]⟩
  · right
    exact ⟨"list index out of range".toList, by simp [local_app.analyze_photo, hd, hs, h5]⟩

/-- C5: a candidate image that reaches the classification step and fails —
decode failure, service exception, or malformed (short) response — still
produces exactly one appended ledger row; that row carries the image's path
and its content hash (or path fallback), its attribute values are the fixed
error placeholders, and the step returns control to the loop (`next`, not a
raise), so processing continues with the remaining images. -/
theorem C5_sentinel_rows (env : Env) (daily_limit : Nat)
    (processed_hashes : List Str) (s : local_app.PhotoState) (p : Str)
    (hdl : s.daily_requests < daily_limit)
    (hh : local_app.get_image_hash env.fs p ∉ processed_hashes)
    (hw : env.writeRaises p = false)
    (hfail : env.decodeOk p = false ∨ (∃ m, env.svcRaises p = some m) ∨
      (env.decodeOk p = true ∧ env.svcRaises p = none ∧
        (pySplitNL (pyStrip (env.svcText p))).length < 5)) :
    ∃ s' r, local_app.photo_step env daily_limit processed_hashes s p = .next s' ∧
      s'.rows = s.rows ++ [r] ∧
      r.path = p ∧
      r.hash = local_app.get_image_hash env.fs p ∧
      r.category = "Error".toList ∧
      r.wedding = "N/A".toList ∧
      r.people = "Unknown".toList ∧
      r.location = "Unknown".toList ∧
      (r.description = "Failed to load image".toList ∨
        ∃ m, r.description = "Failed to process: ".toList ++ m) := by
  have hres := analyze_photo_fail env p hfail
  unfold local_app.photo_step
  rw [if_neg (not_le.mpr hdl), if_neg hh, hw]
  simp only [Bool.false_eq_true, if_false]
  rcases hres with hres | ⟨m, hres⟩ <;>
    exact ⟨_, _, rfl, rfl, rfl, rfl, by simp [hres, local_app.errorResult],
      by simp [hres, local_app.errorResult], by simp [hres, local_app.errorResult],
      by simp [hres, local_app.errorResult],
      by simp [hres, local_app.errorResult]⟩

/-- Witness for C5: a concrete undecodable image yields a sentinel row. -/
theorem C5_witness :
    ∃ s' r, local_app.photo_step { calmEnv with decodeOk := fun _ => false } 1000 []
        (photoInit 0) "bad.jpg".toList = .next s' ∧
      s'.rows = [] ++ [r] ∧
      r.path = "bad.jpg".toList ∧
      r.hash = local_app.get_image_hash ({ calmEnv with decodeOk := fun _ => false }).fs
        "bad.jpg".toList ∧
      r.category = "Error".toList ∧
      r.wedding = "N/A".toList ∧
      r.people = "Unknown".toList ∧
      r.location = "Unknown".toList ∧
      (r.description = "Failed to load image".toList ∨
        ∃ m, r.description = "Failed to process: ".toList ++ m) :=
  C5_sentinel_rows { calmEnv with decodeOk := fun _ => false } 1000 [] (photoInit 0)
    "bad.jpg".toList (by decide) (by decide) rfl (Or.inl rfl)

/-! ## Claim C1 material -/

theorem winCount_append (w : ℚ) (l1 l2 : List (ℚ × ℚ)) :
    winCount w (l1 ++ l2) = winCount w l1 + winCount w l2 := by
  simp [winCount, List.filter_append]

theorem winCount_single (w ms t : ℚ) :
    winCount w [(ms, t)] = if ms = w then 1 else 0 := by
  by_cases h : ms = w <;> simp [winCount, h]

theorem winCount_eq_zero (w : ℚ) (log : List (ℚ × ℚ))
    (h : ∀ c ∈ log, c.1 < w) : winCount w log = 0 := by
  simp only [winCount, List.length_eq_zero, List.filter_eq_nil_iff]
  intro c hc
  simp only [decide_eq_true_eq]
  exact ne_of_lt (h c hc)

/-- Appending one call to the current window preserves the three governor
invariants, provided the window is current, its count is the counter value,
and the counter is still below 14. -/
theorem govInv_call (log : List (ℚ × ℚ)) (ms ms2 t : ℚ) (rtm2 : Nat)
    (h1 : ∀ c ∈ log, c.1 ≤ ms) (h2 : winCount ms2 log = rtm2)
    (h3 : ∀ w, winCount w log ≤ 14) (hms : ms ≤ ms2) (hrtm : rtm2 ≤ 13) :
    (∀ c ∈ log ++ [(ms2, t)], c.1 ≤ ms2) ∧
    winCount ms2 (log ++ [(ms2, t)]) = rtm2 + 1 ∧
    (∀ w, winCount w (log ++ [(ms2, t)]) ≤ 14) := by
  refine ⟨?_, ?_, ?_⟩
  · intro c hc
    rcases List.mem_append.mp hc with hm | hm
    · exact le_trans (h1 c hm) hms
    · simp only [List.mem_singleton] at hm
      subst hm
      exact le_refl _
  · rw [winCount_append, h2, winCount_single, if_pos rfl]
  · intro w
    rw [winCount_append, winCount_single]
    by_cases hww : ms2 = w
    · subst hww
      rw [h2, if_pos rfl]
      omega
    · rw [if_neg hww]
      simpa using h3 w

/-- One driver step preserves the governor invariant (when the write path
does not raise, so every logged call is counted). -/
theorem govInv_step (env : Env) (daily_limit : Nat) (pH : List Str)
    (s : local_app.PhotoState) (p : Str) (hw : env.writeRaises p = false)
    (h : GovInv s) :
    GovInv (match local_app.photo_step env daily_limit pH s p with
            | .halt s' => s'
            | .next s' => s') := by
  obtain ⟨h1, h2, h3⟩ := h
  unfold local_app.photo_step
  by_cases hd : s.daily_requests ≥ daily_limit
  · rw [if_pos hd]
    exact ⟨h1, h2, h3⟩
  rw [if_neg hd]
  by_cases hh : local_app.get_image_hash env.fs p ∈ pH
  · simp only [if_pos hh]
    exact ⟨h1, h2, h3⟩
  simp only [if_neg hh, hw, Bool.false_eq_true, if_false]
  by_cases hr : s.clock + env.preDelay p - s.minute_start ≥ 60
  · -- window expired: reset to a strictly later window, zero counter
    have hlt : ∀ c ∈ s.callLog, c.1 < s.clock + env.preDelay p := by
      intro c hc
      have := h1 c hc
      linarith
    simp only [if_pos hr, if_neg (by omega : ¬(0 : Nat) ≥ 14)]
    exact govInv_call s.callLog s.minute_start _ _ 0 h1
      (winCount_eq_zero _ _ hlt) h3 (by linarith) (by omega)
  · simp only [if_neg hr]
    by_cases hq : s.requests_this_minute ≥ 14
    · -- counter saturated: sleep to the window end, new window, zero counter
      have hlt : ∀ c ∈ s.callLog, c.1 < s.minute_start + 60 := by
        intro c hc
        have := h1 c hc
        linarith
      simp only [if_pos hq]
      exact govInv_call s.callLog s.minute_start _ _ 0 h1
        (winCount_eq_zero _ _ hlt) h3 (by linarith) (by omega)
    · -- same window, counter below 14
      simp only [if_neg hq]
      exact govInv_call s.callLog s.minute_start _ _ _ h1 h2 h3 (le_refl _)
        (by omega)

/-- The whole loop preserves the governor invariant. -/
theorem govInv_loop (env : Env) (daily_limit : Nat) (pH : List Str)
    (hw : ∀ p, env.writeRaises p = false) :
    ∀ (l : List Str) (s : local_app.PhotoState), GovInv s →
      GovInv (local_app.photo_loop env daily_limit pH s l) := by
  intro l
  induction l with
  | nil => exact fun s h => h
  | cons p rest ih =>
    intro s h
    have hstep := govInv_step env daily_limit pH s p (hw p) h
    unfold local_app.photo_loop
    cases heq : local_app.photo_step env daily_limit pH s p with
    | halt s' =>
      rw [heq] at hstep
      exact hstep
    | next s' =>
      rw [heq] at hstep
      exact ih s' hstep

/-- C1 counterexample: a concrete run (unbounded daily limit, fresh ledger,
no write failures, ideal timing) issues its first classification attempt 46
seconds into the first governor window and then runs freely: the governor's
fixed window expires after the 14th call, the counter resets, and 14 more
calls follow immediately.  All 28 calls land at times 46..73, inside the
60-second sliding window [20, 80) — so a 60-second sliding window can see
28 > 14 calls, falsifying C1 as stated. -/
theorem C1_counterexample :
    ((local_app.process_folder burstEnv .absent burstEntries (fun _ l => l)
        1000 none 0).callLog.map Prod.snd) =
      [46, 47, 48, 49, 50, 51, 52, 53, 54, 55, 56, 57, 58, 59,
       60, 61, 62, 63, 64, 65, 66, 67, 68, 69, 70, 71, 72, 73] ∧
    (((local_app.process_folder burstEnv .absent burstEntries (fun _ l => l)
        1000 none 0).callLog.map Prod.snd).filter
      (fun t => 20 ≤ t ∧ t < 80)).length = 28 := by
  constructor <;> decide

/-- C1 amended: the governor enforces its 14-call budget per governor
window — between consecutive resets of `minute_start` — not per sliding
60-second window: in any run in which every issued call is also counted
(no write-path exception skips the counter updates), at most 14
classification attempts are logged against any one window start.  (A
sliding 60-second window can overlap two consecutive governor windows and
thus see up to 28 calls, as the counterexample shows.) -/
theorem C1_fixed_window_bound (env : Env) (ledger : local_app.LedgerFile)
    (entries : List Entry) (rand : Nat → List Str → List Str)
    (daily_limit : Nat) (sample_size : Option Nat) (t0 : ℚ) (w : ℚ)
    (hw : ∀ p, env.writeRaises p = false) :
    winCount w (local_app.process_folder env ledger entries rand daily_limit
      sample_size t0).callLog ≤ 14 := by
  unfold local_app.process_folder
  refine (govInv_loop env daily_limit _ hw _ _ ?_).2.2 w
  exact ⟨by simp, by simp [winCount], fun _ => by simp [winCount]⟩

/-- Witness for C1 amended at a concrete run. -/
theorem C1_witness :
    winCount 0 (local_app.process_folder calmEnv .absent burstEntries
      (fun _ l => l) 1000 none 0).callLog ≤ 14 :=
  C1_fixed_window_bound calmEnv .absent burstEntries (fun _ l => l) 1000 none 0 0
    (fun _ => rfl)

/-! ## Claim C4 material -/

/-- One driver step preserves the daily-cap invariant (when the write path
does not raise). -/
theorem capInv_step (env : Env) (daily_limit : Nat) (pH : List Str)
    (s : local_app.PhotoState) (p : Str) (hw : env.writeRaises p = false)
    (h : CapInv daily_limit s) :
    CapInv daily_limit (match local_app.photo_step env daily_limit pH s p with
      | .halt s' => s'
      | .next s' => s') := by
  obtain ⟨h1, h2⟩ := h
  unfold local_app.photo_step
  by_cases hd : s.daily_requests ≥ daily_limit
  · rw [if_pos hd]
    exact ⟨h1, h2⟩
  rw [if_neg hd]
  by_cases hh : local_app.get_image_hash env.fs p ∈ pH
  · simp only [if_pos hh]
    exact ⟨h1, h2⟩
  simp only [if_neg hh, hw, Bool.false_eq_true, if_false]
  refine ⟨?_, by simp [h2]⟩
  show s.daily_requests + 1 ≤ daily_limit
  omega

/-- The whole loop preserves the daily-cap invariant. -/
theorem capInv_loop (env : Env) (daily_limit : Nat) (pH : List Str)
    (hw : ∀ p, env.writeRaises p = false) :
    ∀ (l : List Str) (s : local_app.PhotoState), CapInv daily_limit s →
      CapInv daily_limit (local_app.photo_loop env daily_limit pH s l) := by
  intro l
  induction l with
  | nil => exact fun s h => h
  | cons p rest ih =>
    intro s h
    have hstep := capInv_step env daily_limit pH s p (hw p) h
    unfold local_app.photo_loop
    cases heq : local_app.photo_step env daily_limit pH s p with
    | halt s' =>
      rw [heq] at hstep
      exact hstep
    | next s' =>
      rw [heq] at hstep
      exact ih s' hstep

/-- C4: in any run in which every issued call is also counted (no
write-path exception skips the counter updates), the daily counter never
exceeds the configured limit and counts the classification attempts
exactly — so once it reaches the limit no further classification call
occurs, and the run ends by the loop's `break` (a normal return), not by an
error. -/
theorem C4_daily_cap (env : Env) (ledger : local_app.LedgerFile)
    (entries : List Entry) (rand : Nat → List Str → List Str)
    (daily_limit : Nat) (sample_size : Option Nat) (t0 : ℚ)
    (hw : ∀ p, env.writeRaises p = false) :
    (local_app.process_folder env ledger entries rand daily_limit sample_size
      t0).daily_requests ≤ daily_limit ∧
    (local_app.process_folder env ledger entries rand daily_limit sample_size
      t0).callLog.length =
    (local_app.process_folder env ledger entries rand daily_limit sample_size
      t0).daily_requests := by
  unfold local_app.process_folder
  exact capInv_loop env daily_limit _ hw _ _ ⟨Nat.zero_le _, rfl⟩

/-- Witness for C4: a run with a daily limit of 1 over 28 fresh candidates
makes at most one call. -/
theorem C4_witness :
    (local_app.process_folder calmEnv .absent burstEntries (fun _ l => l) 1
      none 0).daily_requests ≤ 1 ∧
    (local_app.process_folder calmEnv .absent burstEntries (fun _ l => l) 1
      none 0).callLog.length =
    (local_app.process_folder calmEnv .absent burstEntries (fun _ l => l) 1
      none 0).daily_requests :=
  C4_daily_cap calmEnv .absent burstEntries (fun _ l => l) 1 none 0
    (fun _ => rfl)

/-! ## Claim C6 material -/

/-- One driver step preserves the durability invariant (write failures do
not touch the rows, the progress counter, or the durable count). -/
theorem flushInv_step (env : Env) (daily_limit : Nat) (pH : List Str)
    (s : local_app.PhotoState) (p : Str) (h : FlushInv s) :
    FlushInv (match local_app.photo_step env daily_limit pH s p with
      | .halt s' => s'
      | .next s' => s') := by
  obtain ⟨h1, h2⟩ := h
  unfold local_app.photo_step
  by_cases hd : s.daily_requests ≥ daily_limit
  · rw [if_pos hd]
    exact ⟨h1, h2⟩
  rw [if_neg hd]
  by_cases hh : local_app.get_image_hash env.fs p ∈ pH
  · simp only [if_pos hh]
    exact ⟨h1, h2⟩
  simp only [if_neg hh]
  by_cases hwr : env.writeRaises p = true
  · simp only [if_pos hwr]
    exact ⟨h1, h2⟩
  have hwf : env.writeRaises p = false := by
    revert hwr
    cases env.writeRaises p <;> simp
  simp only [hwf, Bool.false_eq_true, if_false]
  refine ⟨by simp [h1], ?_⟩
  show (if (s.total_processed + 1) % 10 = 0 then s.rows.length + 1 else s.flushed) =
    10 * ((s.total_processed + 1) / 10)
  by_cases hm : (s.total_processed + 1) % 10 = 0
  · rw [if_pos hm]
    omega
  · rw [if_neg hm]
    omega

/-- The whole loop preserves the durability invariant. -/
theorem flushInv_loop (env : Env) (daily_limit : Nat) (pH : List Str) :
    ∀ (l : List Str) (s : local_app.PhotoState), FlushInv s →
      FlushInv (local_app.photo_loop env daily_limit pH s l) := by
  intro l
  induction l with
  | nil => exact fun s h => h
  | cons p rest ih =>
    intro s h
    have hstep := flushInv_step env daily_limit pH s p h
    unfold local_app.photo_loop
    cases heq : local_app.photo_step env daily_limit pH s p with
    | halt s' =>
      rw [heq] at hstep
      exact hstep
    | next s' =>
      rw [heq] at hstep
      exact ih s' hstep

/-- C6 counterexample: the tattoo driver contains no flush call at all; a
run of it that makes 11 successful appends has made nothing durable
mid-run, falsifying the claim for that pipeline (whose driver the claim
also cites). -/
theorem C6_counterexample :
    (tattoo_classifier.process_folder calmEnv .absent
      (List.replicate 11 ⟨"a.jpg".toList, ".jpg".toList⟩) 0).total_processed = 11 ∧
    (tattoo_classifier.process_folder calmEnv .absent
      (List.replicate 11 ⟨"a.jpg".toList, ".jpg".toList⟩) 0).flushed = 0 := by
  constructor <;> decide

/-- C6 amended: the photo driver flushes after every 10th successful
append, so any photo run that has completed at least 11 successful appends
has at least 10 rows durable; the tattoo driver never flushes during the
run (see the counterexample). -/
theorem C6_flush (env : Env) (ledger : local_app.LedgerFile)
    (entries : List Entry) (rand : Nat → List Str → List Str)
    (daily_limit : Nat) (sample_size : Option Nat) (t0 : ℚ)
    (h11 : 11 ≤ (local_app.process_folder env ledger entries rand daily_limit
      sample_size t0).total_processed) :
    10 ≤ (local_app.process_folder env ledger entries rand daily_limit
      sample_size t0).flushed := by
  have heq : local_app.process_folder env ledger entries rand daily_limit
      sample_size t0 =
    local_app.photo_loop env daily_limit (local_app.get_processed_images ledger).1
      (photoInit t0)
      (local_app.apply_sample rand sample_size
        (local_app.scan_images (local_app.get_processed_images ledger).2 entries)) := rfl
  have h := flushInv_loop env daily_limit
    (local_app.get_processed_images ledger).1
    (local_app.apply_sample rand sample_size
      (local_app.scan_images (local_app.get_processed_images ledger).2 entries))
    (photoInit t0) ⟨rfl, by simp [photoInit]⟩
  obtain ⟨h1, h2⟩ := h
  rw [heq] at h11 ⊢
  omega

/-- Witness for C6 amended: a run with 28 successful appends has at least
10 durable rows. -/
theorem C6_witness :
    10 ≤ (local_app.process_folder calmEnv .absent burstEntries (fun _ l => l)
      1000 none 0).flushed :=
  C6_flush calmEnv .absent burstEntries (fun _ l => l) 1000 none 0 (by decide)

/-! ## Claim C3 material -/

theorem scan_images_cons (pP : List Str) (e : Entry) (rest : List Entry) :
    local_app.scan_images pP (e :: rest) =
      if pyLower e.suffix ∈ image_extensions ∧ e.path ∉ pP then
        e.path :: local_app.scan_images pP rest
      else local_app.scan_images pP rest := by
  simp only [local_app.scan_images, List.filter_cons]
  by_cases h : pyLower e.suffix ∈ image_extensions ∧ e.path ∉ pP
  · simp [h]
  · simp [h]

/-- An entry filtered out by extension or already known by path leaves the
tattoo driver state untouched. -/
theorem tattoo_step_skip (env : Env) (pP : List Str)
    (st : tattoo_classifier.TattooState) (e : Entry)
    (h : ¬(pyLower e.suffix ∈ image_extensions ∧ e.path ∉ pP)) :
    tattoo_classifier.tattoo_step env pP st e = st := by
  unfold tattoo_classifier.tattoo_step
  by_cases hs : pyLower e.suffix ∈ image_extensions
  · have hp : e.path ∈ pP := by
      by_contra hp
      exact h ⟨hs, hp⟩
    rw [if_pos hs, if_pos hp]
  · rw [if_neg hs]

/-- On an entry that passes every filter and does not hit the daily cap,
the photo step and the tattoo step stay in lock step. -/
theorem sync_step (env : Env) (daily_limit : Nat) (pH pP : List Str)
    (sp : local_app.PhotoState) (st : tattoo_classifier.TattooState) (e : Entry)
    (hrel : SyncRel sp st)
    (hdl : sp.daily_requests < daily_limit)
    (hhash : local_app.get_image_hash env.fs e.path ∉ pH)
    (hsfx : pyLower e.suffix ∈ image_extensions)
    (hnp : e.path ∉ pP) :
    ∃ sp', local_app.photo_step env daily_limit pH sp e.path = .next sp' ∧
      SyncRel sp' (tattoo_classifier.tattoo_step env pP st e) ∧
      sp'.daily_requests ≤ sp.daily_requests + 1 := by
  obtain ⟨hck, hms, hrtm, htot, hdaily, hlog, hrows⟩ := hrel
  unfold local_app.photo_step tattoo_classifier.tattoo_step
  rw [if_neg (not_le.mpr hdl), if_neg hhash, if_pos hsfx, if_neg hnp]
  by_cases hwr : env.writeRaises e.path = true
  · simp only [if_pos hwr]
    refine ⟨_, rfl, ?_, Nat.le_succ _⟩
    unfold SyncRel
    simp only [hck, hms, hrtm, htot, hdaily, hlog, hrows]
    exact ⟨trivial, trivial, trivial, trivial, trivial, trivial, trivial⟩
  · have hwf : env.writeRaises e.path = false := by
      revert hwr
      cases env.writeRaises e.path <;> simp
    simp only [hwf, Bool.false_eq_true, if_false]
    refine ⟨_, rfl, ?_, Nat.le_refl _⟩
    unfold SyncRel
    simp only [hck, hms, hrtm, htot, hdaily, hlog, hrows, List.map_append]
    exact ⟨trivial, trivial, trivial, trivial, trivial, trivial, by simp⟩

/-- Under the conditions in which the photo driver's extra features never
fire (no known content hash among the candidates, daily cap not reachable),
the two driver loops stay in lock step from related states. -/
theorem sync_loop (env : Env) (daily_limit : Nat) (pH pP : List Str) :
    ∀ (entries : List Entry) (sp : local_app.PhotoState)
      (st : tattoo_classifier.TattooState),
      SyncRel sp st →
      sp.daily_requests + entries.length ≤ daily_limit →
      (∀ e ∈ entries, local_app.get_image_hash env.fs e.path ∉ pH) →
      SyncRel (local_app.photo_loop env daily_limit pH sp
                 (local_app.scan_images pP entries))
              (entries.foldl (tattoo_classifier.tattoo_step env pP) st) := by
  intro entries
  induction entries with
  | nil =>
    intro sp st hrel _ _
    simpa [local_app.scan_images] using hrel
  | cons e rest ih =>
    intro sp st hrel hcap hh
    rw [scan_images_cons, List.foldl_cons]
    by_cases hc : pyLower e.suffix ∈ image_extensions ∧ e.path ∉ pP
    · rw [if_pos hc]
      have hlen : rest.length + 1 = (e :: rest).length := by simp
      obtain ⟨sp', hstep, hrel', hinc⟩ := sync_step env daily_limit pH pP sp st e
        hrel (by simp at hcap; omega) (hh e (List.mem_cons_self e rest)) hc.1 hc.2
      unfold local_app.photo_loop
      rw [hstep]
      refine ih sp' _ hrel' ?_ (fun e' he' => hh e' (List.mem_cons_of_mem e he'))
      simp at hcap
      omega
    · rw [if_neg hc, tattoo_step_skip env pP st e hc]
      refine ih sp st hrel ?_ (fun e' he' => hh e' (List.mem_cons_of_mem e he'))
      simp at hcap
      omega

/-- C3 counterexample: the tattoo pipeline has no content-hash
de-duplication at all.  With a ledger already recording the image at path
`a.jpg` and the same bytes available at the new path `b.jpg` (`dupFs` below
returns identical contents for both), a tattoo run over `b.jpg` appends one
new row — not the zero rows the claim promises for a copied,
already-recorded image. -/
theorem C3_counterexample :
    (tattoo_classifier.process_folder
      { calmEnv with fs := fun _ => some [1, 2, 3] }
      (.table ["a.jpg".toList])
      [⟨"b.jpg".toList, ".jpg".toList⟩] 0).rows.length = 1 := by decide

/-- C3 amended: the two pipelines share the loop skeleton — the same
extension filter, path-based skip, rate governor, sentinel policy, and
append order — and whenever the photo-only features do not fire (no
candidate's content hash is already indexed, the daily cap exceeds the
candidate count, no sampling), the two drivers run in lock step: same call
trace, same appended paths, same progress count, same final clock.  But
content-hash de-duplication, the daily cap, and the periodic flush exist
only in the photo pipeline (see the counterexample, and C6's
counterexample for the flush). -/
theorem C3_amended (env : Env) (rows : List local_app.PhotoRow)
    (entries : List Entry) (rand : Nat → List Str → List Str)
    (daily_limit : Nat) (t0 : ℚ)
    (hcap : entries.length < daily_limit)
    (hhash : ∀ e ∈ entries, local_app.get_image_hash env.fs e.path ∉
      rows.map local_app.PhotoRow.hash) :
    (local_app.process_folder env (.table rows) entries rand daily_limit none
       t0).callLog =
      (tattoo_classifier.process_folder env
        (.table (rows.map local_app.PhotoRow.path)) entries t0).callLog ∧
    (local_app.process_folder env (.table rows) entries rand daily_limit none
       t0).rows.map local_app.PhotoRow.path =
      (tattoo_classifier.process_folder env
        (.table (rows.map local_app.PhotoRow.path)) entries
        t0).rows.map tattoo_classifier.TattooRow.path ∧
    (local_app.process_folder env (.table rows) entries rand daily_limit none
       t0).total_processed =
      (tattoo_classifier.process_folder env
        (.table (rows.map local_app.PhotoRow.path)) entries t0).total_processed ∧
    (local_app.process_folder env (.table rows) entries rand daily_limit none
       t0).clock =
      (tattoo_classifier.process_folder env
        (.table (rows.map local_app.PhotoRow.path)) entries t0).clock := by
  have heqp : local_app.process_folder env (.table rows) entries rand
      daily_limit none t0 =
    local_app.photo_loop env daily_limit (rows.map local_app.PhotoRow.hash)
      (photoInit t0)
      (local_app.scan_images (rows.map local_app.PhotoRow.path) entries) := rfl
  have heqt : tattoo_classifier.process_folder env
      (.table (rows.map local_app.PhotoRow.path)) entries t0 =
    entries.foldl
      (tattoo_classifier.tattoo_step env (rows.map local_app.PhotoRow.path))
      { clock := t0, minute_start := t0, requests_this_minute := 0,
        total_processed := 0, rows := [], flushed := 0, callLog := [] } := rfl
  have h := sync_loop env daily_limit (rows.map local_app.PhotoRow.hash)
    (rows.map local_app.PhotoRow.path) entries (photoInit t0)
    { clock := t0, minute_start := t0, requests_this_minute := 0,
      total_processed := 0, rows := [], flushed := 0, callLog := [] }
    ⟨rfl, rfl, rfl, rfl, rfl, rfl, rfl⟩ (by simp [photoInit]; omega) hhash
  obtain ⟨hck, _, _, htot, _, hlog, hrows⟩ := h
  rw [heqp, heqt]
  exact ⟨hlog, hrows, htot, hck⟩

/-- Witness for C3 amended at a concrete pair of runs. -/
theorem C3_witness :
    (local_app.process_folder calmEnv (.table []) burstEntries (fun _ l => l)
       1000 none 0).callLog =
      (tattoo_classifier.process_folder calmEnv (.table []) burstEntries
        0).callLog ∧
    (local_app.process_folder calmEnv (.table []) burstEntries (fun _ l => l)
       1000 none 0).rows.map local_app.PhotoRow.path =
      (tattoo_classifier.process_folder calmEnv (.table []) burstEntries
        0).rows.map tattoo_classifier.TattooRow.path ∧
    (local_app.process_folder calmEnv (.table []) burstEntries (fun _ l => l)
       1000 none 0).total_processed =
      (tattoo_classifier.process_folder calmEnv (.table []) burstEntries
        0).total_processed ∧
    (local_app.process_folder calmEnv (.table []) burstEntries (fun _ l => l)
       1000 none 0).clock =
      (tattoo_classifier.process_folder calmEnv (.table []) burstEntries
        0).clock :=
  C3_amended calmEnv [] burstEntries (fun _ l => l) 1000 0 (by decide)
    (by decide)

/-! ## Claim C9 material -/

theorem map_fst_comp_triple (g : Str × Nat → ℚ) (l : List (Str × Nat)) :
    (l.map (fun vc => (vc.1, vc.2, g vc))).map Prod.fst = l.map Prod.fst := by
  rw [List.map_map]
  apply List.map_congr_left
  intro a _
  rfl

theorem insertByCount_perm (x : Str × Nat) (l : List (Str × Nat)) :
    (insertByCount x l).Perm (x :: l) := by
  induction l with
  | nil => exact List.Perm.refl _
  | cons y ys ih =>
    unfold insertByCount
    by_cases h : y.2 ≤ x.2
    · rw [if_pos h]
    · rw [if_neg h]
      exact (List.Perm.cons y ih).trans (List.Perm.swap x y ys)

theorem sortByCountDesc_perm (l : List (Str × Nat)) :
    (sortByCountDesc l).Perm l := by
  induction l with
  | nil => exact List.Perm.refl _
  | cons x xs ih =>
    exact (insertByCount_perm x (sortByCountDesc xs)).trans (List.Perm.cons x ih)

theorem insertByCount_pairwise (x : Str × Nat) (l : List (Str × Nat))
    (h : l.Pairwise (fun a b => b.2 ≤ a.2)) :
    (insertByCount x l).Pairwise (fun a b => b.2 ≤ a.2) := by
  induction l with
  | nil => simp [insertByCount]
  | cons y ys ih =>
    rw [List.pairwise_cons] at h
    obtain ⟨hy, hys⟩ := h
    unfold insertByCount
    by_cases hc : y.2 ≤ x.2
    · rw [if_pos hc]
      refine List.Pairwise.cons ?_ (List.pairwise_cons.mpr ⟨hy, hys⟩)
      intro z hz
      rcases List.mem_cons.mp hz with hz | hz
      · exact hz ▸ hc
      · exact le_trans (hy z hz) hc
    · rw [if_neg hc]
      refine List.Pairwise.cons ?_ (ih hys)
      intro z hz
      rcases List.mem_cons.mp ((insertByCount_perm x ys).mem_iff.mp hz) with hz | hz
      · exact hz ▸ le_of_not_le hc
      · exact hy z hz

theorem sortByCountDesc_pairwise (l : List (Str × Nat)) :
    (sortByCountDesc l).Pairwise (fun a b => b.2 ≤ a.2) := by
  induction l with
  | nil => simp [sortByCountDesc]
  | cons x xs ih => exact insertByCount_pairwise x _ ih

theorem mem_of_mem_distinctsAux (l : List Str) :
    ∀ (seen : List Str) (v : Str), v ∈ distinctsAux seen l → v ∈ l := by
  induction l with
  | nil => intro seen v h; simp [distinctsAux] at h
  | cons w ws ih =>
    intro seen v h
    unfold distinctsAux at h
    by_cases hw : w ∈ seen
    · rw [if_pos hw] at h
      exact List.mem_cons_of_mem _ (ih seen v h)
    · rw [if_neg hw] at h
      rcases List.mem_cons.mp h with h1 | h1
      · exact h1 ▸ List.mem_cons_self _ _
      · exact List.mem_cons_of_mem _ (ih _ v h1)

theorem value_counts_mem (vals : List Str) (vc : Str × Nat)
    (h : vc ∈ value_counts vals) :
    vc.2 = vals.count vc.1 ∧ vc.1 ∈ vals := by
  unfold value_counts at h
  have h2 := (sortByCountDesc_perm _).mem_iff.mp h
  simp only [List.mem_map] at h2
  obtain ⟨v, hv, hvc⟩ := h2
  subst hvc
  exact ⟨rfl, mem_of_mem_distinctsAux vals [] v hv⟩

/-- A string that contains the pattern is changed by a replacement whose
first character differs from the pattern's. -/
theorem pyReplaceF_ne (p0 r0 : Char) (pt rt : Str) (hpr : r0 ≠ p0) :
    ∀ (fuel : Nat) (s : Str), s.length ≤ fuel →
      occursIn (p0 :: pt) s = true →
      pyReplaceF (p0 :: pt) (r0 :: rt) fuel s ≠ s := by
  intro fuel
  induction fuel with
  | zero =>
    intro s hs hocc
    have hnil : s = [] := List.length_eq_zero.mp (Nat.le_zero.mp hs)
    subst hnil
    simp [occursIn, isPrefixOfStr] at hocc
  | succ f ih =>
    intro s hs hocc
    cases s with
    | nil => simp [occursIn, isPrefixOfStr] at hocc
    | cons c cs =>
      unfold pyReplaceF
      by_cases hpre : isPrefixOfStr (p0 :: pt) (c :: cs) = true
      · rw [if_pos ⟨List.cons_ne_nil p0 pt, hpre⟩]
        have hc : p0 = c := by
          unfold isPrefixOfStr at hpre
          simp only [Bool.and_eq_true, decide_eq_true_eq] at hpre
          exact hpre.1
        intro heq
        rw [List.cons_append] at heq
        injection heq with h1 _
        exact hpr (h1.trans hc.symm)
      · rw [if_neg (fun hand => hpre hand.2)]
        have hocc' : occursIn (p0 :: pt) cs = true := by
          unfold occursIn at hocc
          rcases Bool.or_eq_true_iff.mp hocc with h | h
          · exact absurd h hpre
          · exact h
        intro heq
        injection heq with _ h2
        exact ih cs (Nat.le_of_succ_le_succ hs) hocc' h2

/-- Replacement `str.replace('.csv', '_analysis.csv')` changes any string in which
`.csv` occurs. -/
theorem pyReplace_ne_of_occurs (s : Str)
    (hocc : occursIn ".csv".toList s = true) :
    pyReplace ".csv".toList "_analysis.csv".toList s ≠ s :=
  pyReplaceF_ne '.' '_' "csv".toList "analysis.csv".toList (by decide)
    s.length s (le_refl _) hocc

/-- C9 counterexample: the summary file is named by the literal substring
replacement `csv_path.replace('.csv', '_analysis.csv')`, not by suffixing
`_analysis` before the ledger's extension.  For a ledger at `ledger.txt`
the substring is absent, the "derived" name equals the ledger path itself,
and the reporter writes the summary over the ledger — falsifying both the
claimed naming rule (which would give `ledger_analysis.txt`) and the claim
that the reporter never mutates the ledger. -/
theorem C9_counterexample :
    analyze_results "ledger.txt".toList
      (.table [mkPhotoRow "p1".toList "h1".toList "Wedding".toList]) =
      some ("ledger.txt".toList, [("Wedding".toList, 1, 100)]) := by decide

/-- C9 amended: the derived file is named by replacing every occurrence of
the literal substring `.csv` with `_analysis.csv` (which coincides with
"suffix `_analysis` before the extension" for the usual `*.csv` ledger
names); whenever `.csv` occurs in the ledger path the derived name differs
from the ledger path, so the ledger itself is not overwritten; the summary
has one row per distinct category, carrying that category's count and its
percentage of the total rounded to one decimal place, ordered by descending
count.  (For the example ledger Wedding ×3 / Birthday ×1 the rows are
`Wedding,3,75.0` and `Birthday,1,25.0`; see the witness.) -/
theorem C9_amended (csv_path : Str) (rows : List local_app.PhotoRow)
    (name : Str) (out : List (Str × Nat × ℚ))
    (h : analyze_results csv_path (.table rows) = some (name, out)) :
    name = pyReplace ".csv".toList "_analysis.csv".toList csv_path ∧
    (occursIn ".csv".toList csv_path = true → name ≠ csv_path) ∧
    out.Pairwise (fun a b => b.2.1 ≤ a.2.1) ∧
    (out.map Prod.fst).Perm (distincts (rows.map local_app.PhotoRow.category)) ∧
    (∀ x ∈ out, x.2.1 = (rows.map local_app.PhotoRow.category).count x.1 ∧
      x.1 ∈ rows.map local_app.PhotoRow.category ∧
      x.2.2 = round1 ((x.2.1 : ℚ) / ((rows.map local_app.PhotoRow.category).length : ℚ) * 100)) := by
  unfold analyze_results at h
  simp only [Option.some.injEq, Prod.mk.injEq] at h
  obtain ⟨hname, hout⟩ := h
  subst hname
  subst hout
  refine ⟨rfl, fun hocc => pyReplace_ne_of_occurs csv_path hocc, ?_, ?_, ?_⟩
  · rw [List.pairwise_map]
    exact (sortByCountDesc_pairwise _).imp (fun hab => hab)
  · rw [value_counts,
      map_fst_comp_triple (fun vc => round1 ((vc.2 : ℚ) / (rows.length : ℚ) * 100))]
    refine ((sortByCountDesc_perm
      ((distincts (rows.map local_app.PhotoRow.category)).map
        (fun v => (v, (rows.map local_app.PhotoRow.category).count v)))).map
          Prod.fst).trans ?_
    rw [List.map_map]
    have hid : (Prod.fst ∘ fun v : Str =>
        (v, (rows.map local_app.PhotoRow.category).count v)) = id := rfl
    rw [hid, List.map_id]
  · intro x hx
    simp only [List.mem_map] at hx
    obtain ⟨vc, hvc, hfx⟩ := hx
    obtain ⟨hcount, hmem⟩ := value_counts_mem (rows.map local_app.PhotoRow.category) vc hvc
    subst hfx
    have hlen : (rows.length : ℚ) = ((rows.map local_app.PhotoRow.category).length : ℚ) := by
      simp
    exact ⟨hcount, hmem, by rw [hlen]⟩

/-- Witness for C9 amended: the spec's own example.  Wedding ×3 /
Birthday ×1 gives the derived file `photo_analysis.csv` with rows
`Wedding,3,75.0` and `Birthday,1,25.0`, ordered by descending count. -/
theorem C9_witness :
    analyze_results "photo.csv".toList (.table summaryRows) =
      some ("photo_analysis.csv".toList,
        [("Wedding".toList, 3, (75 : ℚ)), ("Birthday".toList, 1, (25 : ℚ))]) ∧
    ("photo_analysis.csv".toList =
        pyReplace ".csv".toList "_analysis.csv".toList "photo.csv".toList ∧
      (occursIn ".csv".toList "photo.csv".toList = true →
        "photo_analysis.csv".toList ≠ "photo.csv".toList) ∧
      ([("Wedding".toList, 3, (75 : ℚ)), ("Birthday".toList, 1, (25 : ℚ))].Pairwise
        (fun a b => b.2.1 ≤ a.2.1)) ∧
      ([("Wedding".toList, 3, (75 : ℚ)), ("Birthday".toList, 1, (25 : ℚ))].map
          Prod.fst).Perm
        (distincts (summaryRows.map local_app.PhotoRow.category)) ∧
      (∀ x ∈ [("Wedding".toList, 3, (75 : ℚ)), ("Birthday".toList, 1, (25 : ℚ))],
        x.2.1 = (summaryRows.map local_app.PhotoRow.category).count x.1 ∧
        x.1 ∈ summaryRows.map local_app.PhotoRow.category ∧
        x.2.2 = round1 ((x.2.1 : ℚ) /
          ((summaryRows.map local_app.PhotoRow.category).length : ℚ) * 100))) :=
  ⟨by decide,
   C9_amended "photo.csv".toList summaryRows "photo_analysis.csv".toList
     [("Wedding".toList, 3, (75 : ℚ)), ("Birthday".toList, 1, (25 : ℚ))]
     (by decide)⟩

/-! ## Helper lemmas -/

theorem wordToBytesLE_length (w : Nat) : (wordToBytesLE w).length = 4 := rfl

theorem md5Bytes_length (m : List Nat) : (md5Bytes m).length = 16 := by
  unfold md5Bytes
  simp [wordToBytesLE]

theorem hexFold_length (l : List Nat) :
    (l.foldr (fun b acc => byteToHex b ++ acc) []).length = 2 * l.length := by
  induction l with
  | nil => rfl
  | cons b bs ih =>
    have hb : (byteToHex b).length = 2 := rfl
    simp only [List.foldr_cons, List.length_append, hb, ih, List.length_cons]
    ring

theorem md5Hex_length (m : List Nat) : (md5Hex m).length = 32 := by
  unfold md5Hex
  rw [hexFold_length, md5Bytes_length]

/-! ## C7 — Content Fingerprinter -/

/-- C7: for every readable file the fingerprint is a fixed-length
(32-character) digest determined by the first 8192 bytes alone (so equal
readable 8 KiB prefixes give equal digests, across any two files); for an
unreadable file the fallback identity is the path string itself. -/
theorem C7_fingerprinter (fs fs' : Str → Option (List Nat)) (p p' : Str) :
    (∀ b, fs p = some b → (local_app.get_image_hash fs p).length = 32) ∧
    (∀ b b', fs p = some b → fs' p' = some b' → b.take 8192 = b'.take 8192 →
      local_app.get_image_hash fs p = local_app.get_image_hash fs' p') ∧
    (fs p = none → local_app.get_image_hash fs p = p) := by
  refine ⟨fun b hb => ?_, fun b b' hb hb' ht => ?_, fun hn => ?_⟩
  · simp [local_app.get_image_hash, hb, md5Hex_length]
  · simp [local_app.get_image_hash, hb, hb', ht]
  · simp [local_app.get_image_hash, hn]

/-- Witness for C7 at concrete files: an unreadable file hashes to its own
path, and a readable file's digest has length 32. -/
theorem C7_witness :
    local_app.get_image_hash (fun _ => none) "a.jpg".toList = "a.jpg".toList ∧
    (local_app.get_image_hash (fun _ => some [97, 98, 99]) "a.jpg".toList).length = 32 :=
  ⟨(C7_fingerprinter (fun _ => none) (fun _ => none) "a.jpg".toList "a.jpg".toList).2.2 rfl,
   (C7_fingerprinter (fun _ => some [97, 98, 99]) (fun _ => none) "a.jpg".toList
      "a.jpg".toList).1 [97, 98, 99] rfl⟩

/-! ## C8 — Ledger Reader -/

/-- C8: a missing ledger yields an empty identity index with no error; a
parsed ledger yields exactly its hash column and its path column; a
malformed ledger is caught and yields empty sets; and a run started on a
malformed ledger behaves exactly like a run started with no ledger at
all. -/
theorem C8_ledger_reader :
    local_app.get_processed_images .absent = ([], []) ∧
    (∀ rows, local_app.get_processed_images (.table rows) =
      (rows.map local_app.PhotoRow.hash, rows.map local_app.PhotoRow.path)) ∧
    local_app.get_processed_images .malformed = ([], []) ∧
    (∀ env entries rand daily_limit sample_size t0,
      local_app.process_folder env .malformed entries rand daily_limit sample_size t0 =
      local_app.process_folder env .absent entries rand daily_limit sample_size t0) :=
  ⟨rfl, fun _ => rfl, rfl, fun _ _ _ _ _ _ => rfl⟩

/-! ## C10 — skipped images leave the run state unchanged -/

/-- C10: an image whose path is already indexed never enters the candidate
list at all (the scan filters it out), and an image whose content hash is
already indexed is skipped by the loop with the entire run state — call
trace, ledger rows, and all counters — left unchanged. -/
theorem C10_skip_frame (env : Env) (daily_limit : Nat) (pH pP : List Str)
    (entries : List Entry) (s : local_app.PhotoState) (p q : Str)
    (hp : p ∈ pP) (hq : s.daily_requests < daily_limit)
    (hqh : local_app.get_image_hash env.fs q ∈ pH) :
    p ∉ local_app.scan_images pP entries ∧
    local_app.photo_step env daily_limit pH s q = .next s := by
  constructor
  · intro hmem
    simp only [local_app.scan_images, List.mem_map, List.mem_filter] at hmem
    obtain ⟨e, he, hpe⟩ := hmem
    have := he.2
    simp only [decide_eq_true_eq] at this
    exact this.2 (hpe ▸ hp)
  · unfold local_app.photo_step
    rw [if_neg (not_le.mpr hq), if_pos hqh]

/-- Witness for C10 at a concrete skipped image. -/
theorem C10_witness :
    "a.jpg".toList ∉ local_app.scan_images ["a.jpg".toList]
      [⟨"a.jpg".toList, ".jpg".toList⟩] ∧
    local_app.photo_step calmEnv 1000 ["b.jpg".toList] (photoInit 0) "b.jpg".toList =
      .next (photoInit 0) :=
  C10_skip_frame calmEnv 1000 ["b.jpg".toList] ["a.jpg".toList]
    [⟨"a.jpg".toList, ".jpg".toList⟩] (photoInit 0) "a.jpg".toList "b.jpg".toList
    (by decide) (by decide) (by decide)
